import Mathlib

/-!
Verification development for the `oryx` news-digest repository.

This file shallowly embeds the aggregation pipeline of `src/oryx_core/digest.py`
(query construction, feed fetch, recency/theme/domain filtering with tiered
fallback, cross-country de-duplication, ranking and rendering) and the simpler
collector of `src/fetch.py`, and proves the testable properties stated in the
repository's specification.

Modelling conventions:
- Timestamps are UTC seconds as `Int` (Python `datetime` values compare like
  their POSIX timestamps; `timedelta(hours=h)` is `h * 3600` seconds).
- External collaborators (the network feed parser `feedparser.parse`,
  `urllib.parse.quote`, `urllib.parse.urlsplit(...).netloc`, `html.unescape`)
  are fields of the world structure `W` and are universally quantified in the
  theorems; concrete instantiations are supplied for the closed witnesses.
- Python `str.lower` is modelled by `pyLower`, the ASCII fragment of Unicode
  lowercasing (exact on every string the proofs evaluate).
- Python dicts appear as association lists in insertion order; Python sets of
  strings appear as `List String` used only through membership.
-/

/-! ## String primitives (models of the Python `str` operations used) -/

/-- ASCII lowercase of one character (fragment of Python `str.lower`). -/
def lcChar (c : Char) : Char :=
  if 'A' ≤ c && c ≤ 'Z' then Char.ofNat (c.toNat + 32) else c

/-- Model of Python `str.lower` (exact on ASCII; non-ASCII passed through). -/
def pyLower (s : String) : String := ⟨s.data.map lcChar⟩

/-- `headChars n h`: `n` is a prefix of the character list `h`. -/
def headChars : List Char → List Char → Bool
  | [], _ => true
  | _ :: _, [] => false
  | a :: as, b :: bs => a == b && headChars as bs

/-- `occursChars n h`: `n` occurs contiguously inside `h`. -/
def occursChars (n : List Char) : List Char → Bool
  | [] => n.isEmpty
  | c :: t => headChars n (c :: t) || occursChars n t

/-- Model of Python `needle in hay` substring containment. -/
def occursIn (needle hay : String) : Bool := occursChars needle.data hay.data

/-- Model of Python `s.endswith(suffix)`. -/
def endsStr (suffix s : String) : Bool := headChars suffix.data.reverse s.data.reverse

/-- Model of Python `s.strip()` (trim leading/trailing whitespace). -/
def pyStrip (s : String) : String :=
  ⟨((s.data.dropWhile Char.isWhitespace).reverse.dropWhile Char.isWhitespace).reverse⟩

/-- Model of Python `s.lstrip(cs)`: drop leading characters belonging to `cs`. -/
def pyLstrip (cs : List Char) (s : String) : String :=
  ⟨s.data.dropWhile (fun c => cs.contains c)⟩

/-- Model of Python `sep.join(xs)`. -/
def sepBy (sep : String) : List String → String
  | [] => ""
  | [x] => x
  | x :: y :: t => x ++ sep ++ sepBy sep (y :: t)

/-- Model of Python `dict.get` on an association list in insertion order. -/
def lookupStr {α : Type} : List (String × α) → String → Option α
  | [], _ => none
  | (k, v) :: rest, q => if k == q then some v else lookupStr rest q

/-- Model of Python `x or default` for an optional string field
(`None` and `""` both fall through to the default). -/
def orS (a : Option String) (d : String) : String :=
  match a with
  | some s => if s == "" then d else s
  | none => d

/-- `flatMapL f l`: concatenation of `f` over `l` (nested `for` loops that
append to one accumulator). -/
def flatMapL {α β : Type} (f : α → List β) : List α → List β
  | [] => []
  | a :: t => f a ++ flatMapL f t

/-- Number of occurrences of `n` as a contiguous substring of `h`
(Python `h.count(n)` for nonempty `n`). -/
def countSubChars (n : List Char) : List Char → Nat
  | [] => 0
  | c :: t => (if headChars n (c :: t) then 1 else 0) + countSubChars n t

/-- Substring-occurrence count on strings. -/
def countSub (needle hay : String) : Nat := countSubChars needle.data hay.data

/-! ## Source Registry tables, transcribed from `src/oryx_core/digest.py`
(byte-exact; the source file stores mojibake text and it is kept verbatim). -/

/-- `ALT_NAMES` table of `oryx_core/digest.py` (country -> alternate names). -/
def ALT_NAMES : List (String × List String) := [
  ("Austria", ["Austria", "\u00c3\u2013sterreich"]),
  ("Bosnia and Herzegovina", ["Bosnia and Herzegovina", "Bosnia", "BiH", "Bosna i Hercegovina"]),
  ("Czech Republic", ["Czech Republic", "Czechia", "\u00c4\u0152esko", "\u00c4\u0152esk\u00c3\u00a1 republika"]),
  ("Malta", ["Malta"]),
  ("Serbia", ["Serbia", "Srbija"]),
  ("Slovakia", ["Slovakia", "Slovensko"]),
  ("Benin", ["Benin"]),
  ("Morocco", ["Morocco", "Maroc", "\u00d8\u00a7\u00d9\u201e\u00d9\u2026\u00d8\u00ba\u00d8\u00b1\u00d8\u00a8"]),
  ("C\u00c3\u00b4te d\u00e2\u20ac\u2122Ivoire", ["C\u00c3\u00b4te d\u00e2\u20ac\u2122Ivoire", "Cote d\x27Ivoire", "Ivory Coast", "CIV"]),
  ("Senegal", ["Senegal", "S\u00c3\u00a9n\u00c3\u00a9gal"]),
  ("Tunisia", ["Tunisia", "Tunisie", "\u00d8\u00aa\u00d9\u02c6\u00d9\u2020\u00d8\u00b3"]),
  ("Burkina Faso", ["Burkina Faso"]),
  ("Ghana", ["Ghana"]),
  ("Liberia", ["Liberia"]),
  ("Jordan", ["Jordan", "\u00d8\u00a7\u00d9\u201e\u00d8\u00a3\u00d8\u00b1\u00d8\u00af\u00d9\u2020", "Al Urdun"])
]

/-- `GN_LOCALE` table of `oryx_core/digest.py` (country -> (hl, gl, ceid)). -/
def GN_LOCALE : List (String × (String × String × String)) := [
  ("Austria", ("de", "AT", "AT:de")),
  ("Bosnia and Herzegovina", ("bs", "BA", "BA:bs")),
  ("Czech Republic", ("cs", "CZ", "CZ:cs")),
  ("Malta", ("en", "MT", "MT:en")),
  ("Serbia", ("sr", "RS", "RS:sr")),
  ("Slovakia", ("sk", "SK", "SK:sk")),
  ("Benin", ("fr", "BJ", "BJ:fr")),
  ("Morocco", ("fr", "MA", "MA:fr")),
  ("C\u00c3\u00b4te d\u00e2\u20ac\u2122Ivoire", ("fr", "CI", "CI:fr")),
  ("Senegal", ("fr", "SN", "SN:fr")),
  ("Tunisia", ("fr", "TN", "TN:fr")),
  ("Burkina Faso", ("fr", "BF", "BF:fr")),
  ("Ghana", ("en", "GH", "GH:en")),
  ("Liberia", ("en", "LR", "LR:en")),
  ("Jordan", ("ar", "JO", "JO:ar"))
]

/-- `COUNTRY_TLDS` table of `oryx_core/digest.py` (country -> local TLD suffixes). -/
def COUNTRY_TLDS : List (String × List String) := [
  ("Austria", [".at"]),
  ("Bosnia and Herzegovina", [".ba"]),
  ("Czech Republic", [".cz"]),
  ("Malta", [".mt"]),
  ("Serbia", [".rs"]),
  ("Slovakia", [".sk"]),
  ("Benin", [".bj"]),
  ("Morocco", [".ma"]),
  ("C\u00c3\u00b4te d\u00e2\u20ac\u2122Ivoire", [".ci"]),
  ("Senegal", [".sn"]),
  ("Tunisia", [".tn"]),
  ("Burkina Faso", [".bf"]),
  ("Ghana", [".gh"]),
  ("Liberia", [".lr"]),
  ("Jordan", [".jo"])
]

/-- `COUNTRY_CONF` table of `oryx_core/digest.py` (after the `.update` call):
country -> (verified_sites, media_sites). -/
def COUNTRY_CONF : List (String × (List String × List String)) := [
  ("Austria",
   (["parlament.gv.at", "bundeskanzleramt.gv.at", "data.gv.at", "gv.at"],
    ["orf.at", "derstandard.at", "kurier.at", "diepresse.com", "profil.at", "wienerzeitung.at"])),
  ("Bosnia and Herzegovina",
   (["parlament.ba", "gov.ba"],
    ["klix.ba", "avaz.ba", "nezavisne.com", "rtrs.tv", "bhrt.ba", "radiosarajevo.ba"])),
  ("Czech Republic",
   (["vlada.cz", "psp.cz", "senat.cz", "gov.cz", "data.gov.cz"],
    ["seznamzpravy.cz", "denikn.cz", "novinky.cz", "idnes.cz", "aktualne.cz", "ceskenoviny.cz"])),
  ("Malta",
   (["gov.mt", "parlament.mt", "data.gov.mt"],
    ["timesofmalta.com", "maltatoday.com.mt", "newsbook.com.mt", "tvmnews.mt", "lovinmalta.com"])),
  ("Serbia",
   (["gov.rs", "parlament.rs"],
    ["rts.rs", "n1info.rs", "b92.net", "danas.rs", "nova.rs", "politika.rs"])),
  ("Slovakia",
   (["gov.sk", "nrsr.sk", "data.gov.sk"],
    ["sme.sk", "dennikn.sk", "aktuality.sk", "pravda.sk", "teraz.sk", "tasr.sk"])),
  ("Benin",
   (["gouv.bj", "sgg.gouv.bj", "assemblee-nationale.bj"],
    ["lanouvelletribune.info", "ortb.bj", "24haubenin.info"])),
  ("Morocco",
   (["maroc.ma", "cg.gov.ma", "justice.gov.ma", "parlement.ma", "data.gov.ma"],
    ["le360.ma", "hespress.com", "medi1news.com", "mapnews.ma", "telquel.ma"])),
  ("C\u00c3\u00b4te d\u00e2\u20ac\u2122Ivoire",
   (["gouv.ci", "assembleenationale.ci", "presidence.ci", "go.ci"],
    ["abidjan.net", "fratmat.info", "rtici.ci", "linfodrome.com", "koaci.com"])),
  ("Senegal",
   (["gouv.sn", "assemblee-nationale.sn", "presidence.sn"],
    ["aps.sn", "seneweb.com", "lequotidien.sn", "lepopulaire.sn"])),
  ("Tunisia",
   (["pm.gov.tn", "gouvernement.tn", "arp.tn", "data.gov.tn"],
    ["tap.info.tn", "businessnews.com.tn", "lapresse.tn", "kapitalis.com"])),
  ("Burkina Faso",
   (["gouvernement.gov.bf", "assembleenationale.bf", "presidence.bf"],
    ["lefaso.net", "sidwaya.info", "rtb.bf"])),
  ("Ghana",
   (["ghana.gov.gh", "gov.gh", "parliament.gh"],
    ["graphic.com.gh", "citinewsroom.com", "myjoyonline.com"])),
  ("Liberia",
   (["emansion.gov.lr", "mofa.gov.lr", "moj.gov.lr"],
    ["frontpageafricaonline.com", "theliberianobserver.com", "news.gov.lr"])),
  ("Jordan",
   (["jordan.gov.jo", "pm.gov.jo", "parliament.jo", "moi.gov.jo"],
    ["petra.gov.jo", "jordantimes.com", "alrai.com"]))
]

/-- `GLOBAL_ALLOWED` list of `oryx_core/digest.py`. -/
def GLOBAL_ALLOWED : List String := [
  "europa.eu", "ec.europa.eu", "coe.int", "oecd.org", "worldbank.org", "afdb.org", "eiti.org", "transparency.org", "undp.org", "un.org", "news.un.org", "osce.org", "ebrd.com"
]

/-- `TOPIC_KEYWORDS` list of `oryx_core/digest.py`. -/
def TOPIC_KEYWORDS : List String := [
  "\"open government\"",
  "transparency",
  "\"access to information\"",
  "whistleblower",
  "\"beneficial ownership\"",
  "\"open data\"",
  "anticorruption",
  "anti-corruption",
  "transparentnost",
  "protikorupcia",
  "pr\u00c3\u00adstup k inform\u00c3\u00a1ci\u00c3\u00a1m",
  "antikorupcija",
  "pristup informacijama",
  "protikorup\u00c4n\u00c3\u00ad",
  "Transparenz",
  "Informationsfreiheit",
  "Offene Daten",
  "transparence",
  "acc\u00c3\u00a8s \u00c3\u00a0 l\x27information",
  "donn\u00c3\u00a9es ouvertes",
  "\u00d8\u00b4\u00d9\u00d8\u00a7\u00d9\u00d9\u0160\u00d8\u00a9",
  "\u00d9\u02c6\u00d8\u00b5\u00d9\u02c6\u00d9\u201e \u00d8\u00a5\u00d9\u201e\u00d9\u2030 \u00d8\u00a7\u00d9\u201e\u00d9\u2026\u00d8\u00b9\u00d9\u201e\u00d9\u02c6\u00d9\u2026\u00d8\u00a7\u00d8\u00aa",
  "\u00d8\u00a7\u00d9\u201e\u00d8\u00a8\u00d9\u0160\u00d8\u00a7\u00d9\u2020\u00d8\u00a7\u00d8\u00aa \u00d8\u00a7\u00d9\u201e\u00d9\u2026\u00d9\u00d8\u00aa\u00d9\u02c6\u00d8\u00ad\u00d8\u00a9"
]

/-- `THEMES` table of `oryx_core/digest.py` (theme name -> trigger phrases),
in source (dict-insertion) order. -/
def THEMES : List (String × List String) := [
  ("Open Government",
   ["open government",
    "open gov",
    "ogp",
    "open governance",
    "offene regierung",
    "vl\u00c3\u00a1da otev\u00c5\u2122en\u00c3\u00a1",
    "otvoren\u00c3\u00a1 vl\u00c3\u00a1da",
    "otvorena vlada"]),
  ("Access to Information",
   ["access to information",
    "freedom of information",
    "foi",
    "foia",
    "rti",
    "informationsfreiheit",
    "pr\u00c3\u00a1vo na informace",
    "pravo na pristup informacijama",
    "slobodan pristup informacijama",
    "pr\u00c3\u00adstup k inform\u00c3\u00a1ci\u00c3\u00a1m",
    "pristup informacijama",
    "acc\u00c3\u00a8s \u00c3\u00a0 l\x27information",
    "\u00d8\u00ad\u00d9\u201a \u00d8\u00a7\u00d9\u201e\u00d9\u02c6\u00d8\u00b5\u00d9\u02c6\u00d9\u201e \u00d8\u00a5\u00d9\u201e\u00d9\u2030 \u00d8\u00a7\u00d9\u201e\u00d9\u2026\u00d8\u00b9\u00d9\u201e\u00d9\u02c6\u00d9\u2026\u00d8\u00a7\u00d8\u00aa"]),
  ("Anti-Corruption",
   ["anti-corruption",
    "anticorruption",
    "corruption",
    "bribery",
    "integrity",
    "korupce",
    "korupcia",
    "korupcija",
    "bestechung"]),
  ("Civic Space",
   ["civic space",
    "civil society",
    "ngo law",
    "freedom of association",
    "assembly",
    "protest",
    "udru\u00c5\u00beenja",
    "nevladine organizacije",
    "nvo",
    "ob\u00c4ianske zdru\u00c5\u00beenie",
    "spolek"]),
  ("Climate and Environment",
   ["climate",
    "emissions",
    "carbon",
    "co2",
    "environment",
    "biodiversity",
    "air quality",
    "klima",
    "umwelt",
    "\u00c5\u00beivotn\u00c3\u00ad prost\u00c5\u2122ed\u00c3\u00ad",
    "\u00c5\u00beivotn\u00c3\u00a9 prostredie",
    "\u00c5\u00beivotna sredina",
    "okoli\u00c5\u00a1"]),
  ("Digital Governance",
   ["digital government",
    "e-government",
    "egov",
    "digital identity",
    "eid",
    "ai policy",
    "cybersecurity",
    "govtech",
    "open data",
    "data portal",
    "e-government",
    "e-\u00c3\u00barad",
    "eidas",
    "digit\u00c3\u00a1ln\u00c3\u00ad",
    "digit\u00c3\u00a1lne"]),
  ("Fiscal Openness",
   ["budget transparency",
    "open budget",
    "procurement",
    "public procurement",
    "tenders",
    "spending",
    "fiscal",
    "beneficial ownership",
    "tax transparency",
    "verejn\u00c3\u00a9 obstar\u00c3\u00a1vanie",
    "ve\u00c5\u2122ejn\u00c3\u00a9 zak\u00c3\u00a1zky",
    "javne nabavke"]),
  ("Gender and Inclusion",
   ["gender",
    "women",
    "equality",
    "inclusion",
    "disability",
    "lgbt",
    "rovnos\u00c5\u00a5",
    "rovnost",
    "ravnopravnost",
    "gleichstellung"]),
  ("Justice",
   ["justice",
    "judiciary",
    "court",
    "prosecution",
    "rule of law",
    "whistleblower",
    "pravosudje",
    "pravosu\u00c4\u2018e",
    "s\u00c3\u00bad",
    "soud",
    "gericht"]),
  ("Media Freedom",
   ["media freedom",
    "press freedom",
    "journalist",
    "defamation",
    "sloboda medija",
    "svoboda tisku",
    "medienfreiheit"]),
  ("Public Participation",
   ["public consultation",
    "participation",
    "citizen engagement",
    "petition",
    "referendum",
    "verejn\u00c3\u00a1 konzult\u00c3\u00a1cia",
    "\u00c3\u00ba\u00c4ast verejnosti",
    "javna rasprava",
    "javna konsultacija",
    "mitbestimmung"])
]

/-! ## Data model of the digest pipeline -/

/-- A raw feed entry as surfaced by `feedparser` (`parsed.entries` element).
`epub`/`eupd` model `published_parsed`/`updated_parsed` already converted to
UTC seconds (the code's `datetime.fromtimestamp(time.mktime(t), tz=utc)`). -/
structure Entry where
  etitle : Option String
  elink : Option String
  esummary : Option String
  epub : Option Int
  eupd : Option Int
deriving DecidableEq

/-- A classified item, the dict built in `_collect_for`. -/
structure Item where
  title : String
  link : String
  summary : String
  domain : String
  time : Int
  themes : List String
  verified : Bool
deriving DecidableEq

/-- The run world: external collaborators and configuration that
`oryx_core/digest.py` reads.
- `unescape` models `html.unescape`;
- `quote` models `urllib.parse.quote`;
- `netloc` models `urllib.parse.urlsplit(url).netloc`;
- `feed` models `feedparser.parse(url).entries` (the frozen fetch fixture;
  `feedparser` embeds network/parse errors and then yields no entries);
- `enabled` models `ENABLED_THEMES` (the optional `ORYX_THEMES` restriction,
  a set used only through membership; `none` = unset);
- `now` models `datetime.now(timezone.utc)` in UTC seconds. -/
structure W where
  unescape : String → String
  quote : String → String
  netloc : String → String
  feed : String → List Entry
  enabled : Option (List String)
  now : Int

/-! ## Helpers of `oryx_core/digest.py` -/

/-- `_ts`: first of `published_parsed` / `updated_parsed`, if any. -/
def tsOf (e : Entry) : Option Int := e.epub <|> e.eupd

/-- `e.get(key) or ""` / `e.get(key, "")` on the string fields. -/
def getS (o : Option String) : String := o.getD ""

/-- `_domain`: netloc, lowercased, with leading `w`/`.` characters stripped
(Python `lstrip("www.")` strips by character set). -/
def domainOf (w : W) (url : String) : String :=
  pyLstrip ['w', '.'] (pyLower (w.netloc url))

/-- `_names`: alternate names with the country itself as default. -/
def namesOf (c : String) : List String := (lookupStr ALT_NAMES c).getD [c]

/-- `_locale` with its `("en", "US", "US:en")` default. -/
def localeOf (c : String) : String × String × String :=
  (lookupStr GN_LOCALE c).getD ("en", "US", "US:en")

/-- The two locales each query is fetched under (`[(hl, gl, ceid), ("en","US","US:en")]`). -/
def localesOf (c : String) : List (String × String × String) :=
  [localeOf c, ("en", "US", "US:en")]

/-- `_gn_rss`: the Google News RSS search URL for a query and locale. -/
def gnRss (w : W) (q : String) (loc : String × String × String) : String :=
  "https://news.google.com/rss/search?q=" ++ w.quote q ++ "&hl=" ++ loc.1 ++
    "&gl=" ++ loc.2.1 ++ "&ceid=" ++ loc.2.2

/-- `_contains_country`: some alternate name occurs in the lowercased text. -/
def containsCountry (txt c : String) : Bool :=
  (namesOf c).any fun n => occursIn (pyLower n) (pyLower txt)

/-- `_is_local_domain`: the domain ends with one of the country's local TLDs. -/
def isLocalDomain (c dom : String) : Bool :=
  ((lookupStr COUNTRY_TLDS c).getD []).any fun tld => endsStr tld dom

/-- `_endswith_any`: domain equals or ends with one of `sites` (both lowercased). -/
def endsWithAny (d : String) (sites : List String) : Bool :=
  sites.any fun s => pyLower d == pyLower s || endsStr (pyLower s) (pyLower d)

/-- The alternation body of the `re.search` government-host heuristic in
`_is_verified_domain`: the pattern `(gov|gouv|parliament|parlament|senat|senate|assemblee|data\.gov)`
matches iff one of these literals occurs in the domain. -/
def govHosts : List String :=
  ["gov", "gouv", "parliament", "parlament", "senat", "senate", "assemblee", "data.gov"]

/-- `_is_verified_domain`: explicit verified list, else the regex heuristic. -/
def isVerifiedDomain (c dom : String) : Bool :=
  (match lookupStr COUNTRY_CONF c with
   | some conf => endsWithAny dom conf.1
   | none => false) ||
  govHosts.any fun p => occursIn p dom

/-- The `topics` clause of `_build_queries`: `" OR ".join(TOPIC_KEYWORDS)`. -/
def topicsClause : String := sepBy " OR " TOPIC_KEYWORDS

/-- The `names` clause of `_build_queries`: quoted alternate names, OR-joined. -/
def namesClause (c : String) : String :=
  sepBy " OR " ((namesOf c).map fun n => "\"" ++ n ++ "\"")

/-- One targeted query of `_build_queries`: `({topics}) ({names}) (site:{s})`. -/
def targetedQuery (c s : String) : String :=
  "(" ++ topicsClause ++ ") (" ++ namesClause c ++ ") (site:" ++ s ++ ")"

/-- The generic query of `_build_queries`: `({topics}) ({names})`. -/
def genericQuery (c : String) : String :=
  "(" ++ topicsClause ++ ") (" ++ namesClause c ++ ")"

/-- `_build_queries`: label -> query list, in dict-insertion order. -/
def buildQueries (c : String) (targeted : Bool) : List (String × List String) :=
  match targeted, lookupStr COUNTRY_CONF c with
  | true, some conf =>
      [("verified", conf.1.map (targetedQuery c)), ("media", conf.2.map (targetedQuery c))]
  | _, _ => [("generic", [genericQuery c])]

/-- `_match_themes` theme enablement: a theme is skipped only when
`ENABLED_THEMES` is set, non-empty (Python truthiness), and misses the theme. -/
def themeEnabled (enabled : Option (List String)) (t : String) : Bool :=
  match enabled with
  | none => true
  | some en => en.isEmpty || en.contains t

/-- `_match_themes`: the enabled themes one of whose trigger phrases occurs in
the lowercased text, in `THEMES` order. -/
def matchThemes (enabled : Option (List String)) (text : String) : List String :=
  let textL := pyLower text
  (THEMES.filter fun p =>
      themeEnabled enabled p.1 && p.2.any fun kw => occursIn (pyLower kw) textL).map
    fun p => p.1

/-- The `dom == g or dom.endswith(g)` test against `GLOBAL_ALLOWED`. -/
def globalAllowedDom (dom : String) : Bool :=
  GLOBAL_ALLOWED.any fun g => dom == g || endsStr g dom

/-- `_allowed_domain_for_country`, with the source's early-return order:
explicit per-country lists; local TLD + mention; global allowlist gated on
mention; heuristic verified (only under `verified_hint`) gated on mention. -/
def allowedDomainForCountry (c dom title summary : String) (verifiedHint : Bool) : Bool :=
  if (match lookupStr COUNTRY_CONF c with
      | some conf => endsWithAny dom conf.1 || endsWithAny dom conf.2
      | none => false) then true
  else if isLocalDomain c dom && containsCountry (title ++ " " ++ summary) c then true
  else if globalAllowedDom dom then containsCountry (title ++ " " ++ summary) c
  else if verifiedHint && isVerifiedDomain c dom then containsCountry (title ++ " " ++ summary) c
  else false

/-! ## `_collect_for`: primary pass and the two fallback stages -/

/-- The normalised title local of the entry loops:
`html.unescape(e.get("title", "")).strip()`. -/
def entryTitle (w : W) (e : Entry) : String := pyStrip (w.unescape (getS e.etitle))

/-- The normalised summary local. -/
def entrySummary (w : W) (e : Entry) : String := pyStrip (w.unescape (getS e.esummary))

/-- The `f"{title} {summary}"` text the theme and mention gates scan. -/
def entryText (w : W) (e : Entry) : String := entryTitle w e ++ " " ++ entrySummary w e

/-- The `dom` local: `_domain(link)`. -/
def entryDom (w : W) (e : Entry) : String := domainOf w (getS e.elink)

/-- The per-entry body of the primary loop in `_collect_for`: recency gate,
string normalisation, mandatory theme gate, domain gate, tier assignment. -/
def processEntry (w : W) (c lab : String) (cutoff : Int) (e : Entry) : Option Item :=
  match tsOf e with
  | none => none
  | some dt =>
    if dt < cutoff then none
    else if (matchThemes w.enabled (entryText w e)).isEmpty then none
    else if allowedDomainForCountry c (entryDom w e) (entryTitle w e) (entrySummary w e)
        (lab == "verified") then
      some { title := entryTitle w e, link := getS e.elink, summary := entrySummary w e,
             domain := entryDom w e, time := dt,
             themes := matchThemes w.enabled (entryText w e),
             verified := (lab == "verified") || isVerifiedDomain c (entryDom w e) }
    else none

/-- All items the primary pass appends, in loop order (labels, then queries,
then the two locales, then entries). -/
def primaryItems (w : W) (c : String) (cutoff : Int) : List Item :=
  flatMapL
    (fun lg => flatMapL
      (fun q => flatMapL
        (fun loc => (w.feed (gnRss w q loc)).filterMap (processEntry w c lg.1 cutoff))
        (localesOf c))
      lg.2)
    (buildQueries c (lookupStr COUNTRY_CONF c).isSome)

/-- The per-entry body of fallback stage (a): recency and theme gates only;
items are appended to the `verified` pool unconditionally. -/
def processEntryA (w : W) (cutoff : Int) (e : Entry) : Option Item :=
  match tsOf e with
  | none => none
  | some dt =>
    if dt < cutoff then none
    else if (matchThemes w.enabled (entryText w e)).isEmpty then none
    else
      some { title := entryTitle w e, link := getS e.elink, summary := entrySummary w e,
             domain := entryDom w e, time := dt,
             themes := matchThemes w.enabled (entryText w e), verified := true }

/-- Fallback stage (a): one `site:{s}` query per verified site, both locales. -/
def fallbackA (w : W) (c : String) (cutoff : Int) : List Item :=
  match lookupStr COUNTRY_CONF c with
  | none => []
  | some conf =>
      flatMapL
        (fun site => flatMapL
          (fun loc => (w.feed (gnRss w ("site:" ++ site) loc)).filterMap (processEntryA w cutoff))
          (localesOf c))
        conf.1

/-- The per-entry body of fallback stage (b): recency, then country mention,
then theme gate, then local-TLD-or-global-allowlist domain; tier media. -/
def processEntryB (w : W) (c : String) (cutoff : Int) (e : Entry) : Option Item :=
  match tsOf e with
  | none => none
  | some dt =>
    if dt < cutoff then none
    else if !containsCountry (entryText w e) c then none
    else if (matchThemes w.enabled (entryText w e)).isEmpty then none
    else if isLocalDomain c (entryDom w e) || globalAllowedDom (entryDom w e) then
      some { title := entryTitle w e, link := getS e.elink, summary := entrySummary w e,
             domain := entryDom w e, time := dt,
             themes := matchThemes w.enabled (entryText w e), verified := false }
    else none

/-- Fallback stage (b): one names-only query, both locales. -/
def fallbackB (w : W) (c : String) (cutoff : Int) : List Item :=
  flatMapL
    (fun loc => (w.feed (gnRss w ("(" ++ namesClause c ++ ")") loc)).filterMap
      (processEntryB w c cutoff))
    (localesOf c)

/-- Membership in a Python `set` of strings, modelled as a list. -/
def memS (k : String) : List String → Bool
  | [] => false
  | x :: t => k == x || memS k t

/-- The identity key of `_dedupe` and of the cross-country de-duplication in
`generate_digest`: `link or (title + domain)`. -/
def itemKey (it : Item) : String :=
  if it.link ≠ "" then it.link else it.title ++ it.domain

/-- `_dedupe` with its `seen` set threaded: keep an item iff its key is
non-empty and unseen. -/
def dedupeGo (seen : List String) : List Item → List Item
  | [] => []
  | it :: rest =>
    if itemKey it ≠ "" && !memS (itemKey it) seen then
      it :: dedupeGo (itemKey it :: seen) rest
    else dedupeGo seen rest

/-- `_dedupe`. -/
def dedupe (l : List Item) : List Item := dedupeGo [] l

/-- The primary pass's `verified` pool: the appended items with flag true,
in loop order. -/
def primV (w : W) (c : String) (cutoff : Int) : List Item :=
  (primaryItems w c cutoff).filter fun it => it.verified

/-- The primary pass's `media` pool. -/
def primM (w : W) (c : String) (cutoff : Int) : List Item :=
  (primaryItems w c cutoff).filter fun it => !it.verified

/-- The `verified` pool after the fallback block: stage (a) extends it only
when the whole primary pass was empty. -/
def poolV (w : W) (c : String) (cutoff : Int) : List Item :=
  if (primV w c cutoff).isEmpty && (primM w c cutoff).isEmpty then
    primV w c cutoff ++ fallbackA w c cutoff
  else primV w c cutoff

/-- The `media` pool after the fallback block: stage (b) extends it only when
the `verified` pool is still empty after stage (a). -/
def poolM (w : W) (c : String) (cutoff : Int) : List Item :=
  if (poolV w c cutoff).isEmpty && (primM w c cutoff).isEmpty then
    primM w c cutoff ++ fallbackB w c cutoff
  else primM w c cutoff

/-- `_collect_for`: primary pass, tiered fallbacks when it is empty, and a
final `_dedupe` of each pool. -/
def collectFor (w : W) (c : String) (hours : Int) : List Item × List Item :=
  (dedupe (poolV w c (w.now - hours * 3600)), dedupe (poolM w c (w.now - hours * 3600)))

/-! ## `generate_digest`: selection, cross-country de-dup, metrics, ranking -/

/-- `items = v if (verified_only and v) else (v + m)`. -/
def selectItems (verifiedOnly : Bool) (v m : List Item) : List Item :=
  if verifiedOnly && !v.isEmpty then v else v ++ m

/-- The run-wide de-duplication loop of `generate_digest`: returns the grown
`global_seen` set and the country's `unique` pool. -/
def globalFilter (seen : List String) : List Item → List String × List Item
  | [] => (seen, [])
  | it :: rest =>
    if memS (itemKey it) seen then globalFilter seen rest
    else
      let r := globalFilter (itemKey it :: seen) rest
      (r.1, it :: r.2)

/-- Python `bool` coerced for tuple comparison. -/
def bNat (b : Bool) : Nat := if b then 1 else 0

/-- Descending comparison on the sort key
`(it['verified'], len(it['themes']), it['time'])` of `generate_digest`
(`reverse=True`): `rankGE a b` iff `a`'s key is lexicographically ≥ `b`'s. -/
def rankGE (a b : Item) : Bool :=
  decide (bNat b.verified < bNat a.verified) ||
  (bNat a.verified == bNat b.verified &&
    (decide (b.themes.length < a.themes.length) ||
     (a.themes.length == b.themes.length && decide (b.time ≤ a.time))))

/-- The ranking relation as a `Prop`, for `List.insertionSort`. -/
def rankRel (a b : Item) : Prop := rankGE a b = true

instance rankRelDecidable : DecidableRel rankRel := fun a b =>
  inferInstanceAs (Decidable (rankGE a b = true))

/-- `unique.sort(key=..., reverse=True)`: Python's sort is stable, so its
output is the unique stable descending ordering, which the stable
`List.insertionSort` under `rankRel` also produces. -/
def rankSort (l : List Item) : List Item := List.insertionSort rankRel l

/-- First-occurrence-ordered (domain, count) pairs: the items of a
`collections.Counter` built by iterating `xs`. -/
def firstOccsGo (seen : List String) : List String → List String
  | [] => []
  | x :: t => if memS x seen then firstOccsGo seen t else x :: firstOccsGo (x :: seen) t

/-- Distinct values of `xs` in first-occurrence order (`Counter` key order). -/
def firstOccs (l : List String) : List String := firstOccsGo [] l

/-- `Counter(xs).items()` in insertion order. -/
def counterPairs (xs : List String) : List (String × Nat) :=
  (firstOccs xs).map fun d => (d, xs.count d)

/-- Descending-count relation for `Counter.most_common` (stable on ties, which
therefore stay in first-occurrence order, as in CPython). -/
def cntRel (p q : String × Nat) : Prop := q.2 ≤ p.2

instance cntRelDecidable : DecidableRel cntRel := fun p q =>
  inferInstanceAs (Decidable (q.2 ≤ p.2))

/-- `Counter(xs).most_common(3)`. -/
def mostCommon3 (xs : List String) : List (String × Nat) :=
  (List.insertionSort cntRel (counterPairs xs)).take 3

/-- The `top_src` metric string over a pool. -/
def topSrcOf (pool : List Item) : String :=
  sepBy ", " ((mostCommon3 (pool.map fun it => it.domain)).map
    fun p => p.1 ++ " (" ++ toString p.2 ++ ")")

/-- The `top_themes` metric string over a pool. -/
def topThemesOf (pool : List Item) : String :=
  sepBy ", " ((mostCommon3 (flatMapL (fun it => it.themes) pool)).map
    fun p => p.1 ++ " (" ++ toString p.2 ++ ")")

/-- One country's assembled digest block: the `unique` pool, the quant
metrics, the ranked display slice and the rendered lines of `generate_digest`. -/
structure BlockOut where
  country : String
  pool : List Item
  total : Nat
  vcount : Nat
  mcount : Nat
  topSrc : String
  topThemes : String
  displayed : List Item
  lines : List String
deriving DecidableEq

/-- The mojibake literals of the renderer, verbatim from the source bytes. -/
def emDash : String := "â€”"

/-- Verified badge literal. -/
def badgeV : String := "âœ…"

/-- Media badge literal. -/
def badgeM : String := "ðŸ“°"

/-- Bullet literal. -/
def bullet : String := "â€¢"

/-- The "no items" line of `generate_digest`. -/
def noItemsLine (hours : Int) : String :=
  bullet ++ " No theme-matching items in the past " ++ toString hours ++ "h."

/-- The per-item bullet line of `generate_digest`. -/
def itemLine (it : Item) : String :=
  bullet ++ " " ++ (if it.verified then badgeV else badgeM) ++ " " ++ it.title ++ " " ++
    emDash ++ " <" ++ it.link ++ "|" ++ it.domain ++ "> _(themes: " ++
    sepBy ", " it.themes ++ ")_"

/-- The metrics header line of a country block. -/
def headerLine (c : String) (total vcount mcount : Nat) (topThemes topSrc : String) : String :=
  "*" ++ c ++ " " ++ emDash ++ " " ++ toString total ++ " items (" ++ toString vcount ++
    badgeV ++ "/" ++ toString mcount ++ badgeM ++ ")" ++
    (if total ≠ 0 then " | Themes: " ++ topThemes else "") ++
    (if total ≠ 0 then " | Top: " ++ topSrc else "") ++ "*"

/-- The body of the per-country loop of `generate_digest`: collect, select by
the verified-only toggle, run-wide de-dup, metrics over the full `unique`
pool, rank, display the first 6. Returns the grown seen-set and the block. -/
def processCountry (w : W) (hours : Int) (vOnly : Bool) (seen : List String) (c : String) :
    List String × BlockOut :=
  let vm := collectFor w c hours
  let items := selectItems vOnly vm.1 vm.2
  let r := globalFilter seen items
  let unique := r.2
  let total := unique.length
  let vcount := (unique.filter fun it => it.verified).length
  let mcount := total - vcount
  let tS := topSrcOf unique
  let tT := topThemesOf unique
  let displayed := (rankSort unique).take 6
  let rest := if unique.isEmpty then [noItemsLine hours] else displayed.map itemLine
  (r.1, ⟨c, unique, total, vcount, mcount, tS, tT, displayed,
         headerLine c total vcount mcount tT tS :: rest⟩)

/-- The country loop of `generate_digest`, threading `global_seen`. -/
def runBlocksGo (w : W) (hours : Int) (vOnly : Bool) : List String → List String → List BlockOut
  | _, [] => []
  | seen, c :: cs =>
    let r := processCountry w hours vOnly seen c
    r.2 :: runBlocksGo w hours vOnly r.1 cs

/-- The sequence of country blocks of one run (initial seen-set empty). -/
def runBlocks (w : W) (cs : List String) (hours : Int) (vOnly : Bool) : List BlockOut :=
  runBlocksGo w hours vOnly [] cs

/-- `generate_digest`: header plus the joined country blocks
(Python defaults: `hours=24`, `verified_only=True`). -/
def generateDigest (w : W) (countries : List String) (hours : Int) (vOnly : Bool) : String :=
  let header := "Country updates (past " ++ toString hours ++ "h)\n"
  header ++ sepBy "\n" ((runBlocks w countries hours vOnly).map fun b => sepBy "\n" b.lines ++ "\n")

/-! ## Model of `src/fetch.py` -/

/-- A raw `feedparser` entry as read by `fetch.py` (string-typed date fields). -/
structure FEntry where
  ftitle : Option String
  flink : Option String
  fsummary : Option String
  fpublished : Option String
  fupdated : Option String
deriving DecidableEq

/-- A normalised entry (`_normalize_entry` output; the `raw` back-reference is
not modelled as nothing reads it). `npublished` is the parsed timestamp in UTC
seconds, `none` when parsing failed or no date string was present. -/
structure NEntry where
  ntitle : String
  nlink : String
  nsummary : String
  npublished : Option Int
deriving DecidableEq

/-- `_normalize_entry`, parameterised by the external `dateutil` parser
(`dtp s = none` models a raised parse error, caught in the source). -/
def normalizeEntry (dtp : String → Option Int) (e : FEntry) : NEntry :=
  { ntitle := pyStrip (getS e.ftitle)
    nlink := pyStrip (getS e.flink)
    nsummary := pyStrip (getS e.fsummary)
    npublished := dtp (orS e.fpublished (orS e.fupdated "")) }

/-- `filter_last_24h`: keep dated entries with `dt >= cutoff`,
`cutoff = utcnow - 1 day`. -/
def filterLast24h (utcnow : Int) (es : List NEntry) : List NEntry :=
  es.filter fun e =>
    match e.npublished with
    | none => false
    | some dt => utcnow - 86400 ≤ dt

/-- `keyword_filter`: any lowercased keyword occurs in the lowercased
`title summary` blob. -/
def keywordFilter (es : List NEntry) (keywords : List String) : List NEntry :=
  es.filter fun e =>
    (keywords.map pyLower).any fun k => occursIn k (pyLower (e.ntitle ++ " " ++ e.nsummary))

/-- The `_hash` de-duplication key. The source hashes `title + "|" + link`
with SHA-256; the model keeps the pre-image (SHA-256 is injective on the runs
considered, so key equality coincides). -/
def fHash (e : NEntry) : String := e.ntitle ++ "|" ++ e.nlink

/-- `dedupe` of `fetch.py`. -/
def fDedupeGo (seen : List String) : List NEntry → List NEntry
  | [] => []
  | e :: rest =>
    if memS (fHash e) seen then fDedupeGo seen rest
    else e :: fDedupeGo (fHash e :: seen) rest

/-- `dedupe` of `fetch.py` (empty seen-set). -/
def fDedupe (es : List NEntry) : List NEntry := fDedupeGo [] es

/-- Descending-by-published relation of the final sort
(`key=lambda e: e["published"] or datetime.min, reverse=True`; undated sorts
last). -/
def pubRel (a b : NEntry) : Prop :=
  (match a.npublished, b.npublished with
   | some x, some y => y ≤ x
   | some _, none => True
   | none, some _ => False
   | none, none => True)

instance pubRelDecidable : DecidableRel pubRel := fun a b => by
  unfold pubRel
  cases a.npublished <;> cases b.npublished <;> infer_instance

/-- One feed's contribution to `collect` of `fetch.py`: its normalised
entries on success, nothing when the fetch collaborator raised (the
`try/except` around `fetch_feed` maps an error to no contribution and
continues with the remaining feeds). -/
def feedContrib (ff : String → Except String (List FEntry)) (dtp : String → Option Int)
    (url : String) : List NEntry :=
  match ff url with
  | Except.ok es => es.map (normalizeEntry dtp)
  | Except.error _ => []

/-- `collect` of `fetch.py`, parameterised by the fetch collaborator
`ff : url -> entries or error` and the date parser. -/
def fetchCollect (ff : String → Except String (List FEntry)) (dtp : String → Option Int)
    (utcnow : Int) (feeds keywords : List String) : List NEntry :=
  List.insertionSort pubRel
    (fDedupe (keywordFilter (filterLast24h utcnow (flatMapL (feedContrib ff dtp) feeds))
      keywords))

/-! ## Concrete fixtures used by the closed witnesses and counterexamples -/

/-- netloc of a plain absolute URL: the text between `//` and the next `/`
(what `urllib.parse.urlsplit` yields on the URLs of the fixtures). -/
def simpleNetloc (url : String) : String :=
  ⟨((url.data.dropWhile (fun c => c ≠ '/')).drop 2).takeWhile (fun c => c ≠ '/')⟩

/-- A fixture entry: dated exactly at the window boundary for a 24h run at
`now = 86400`, global-allowlist domain, theme-matching title mentioning the
country. -/
def eBoundary : Entry :=
  { etitle := some "atlantis open government summit"
    elink := some "https://un.org/a"
    esummary := some ""
    epub := some 0
    eupd := none }

/-- World whose feed returns `eBoundary` for every query. -/
def WA : W :=
  { unescape := id
    quote := id
    netloc := simpleNetloc
    feed := fun _ => [eBoundary]
    enabled := none
    now := 86400 }

/-- A fixture entry whose domain has Malta's local TLD but is in none of
Malta's explicit site lists. -/
def eLocalTld : Entry :=
  { etitle := some "malta open government news"
    elink := some "https://times.mt/a"
    esummary := some ""
    epub := some 10000
    eupd := none }

/-- World whose feed returns `eLocalTld` for every query (run with the
`ORYX_THEMES` restriction narrowing the scan to one theme). -/
def WM : W :=
  { unescape := id
    quote := id
    netloc := simpleNetloc
    feed := fun _ => [eLocalTld]
    enabled := some ["Open Government"]
    now := 86400 }

/-- A fixture entry with a theme keyword, no country mention, and a domain
unrelated to any list. -/
def eForeign : Entry :=
  { etitle := some "corruption scandal report"
    elink := some "https://random.example/x"
    esummary := some ""
    epub := some 10000
    eupd := none }

/-- The stage-(a) fallback query URL for Malta's first verified site under its
own locale. -/
def faUrlMalta : String :=
  "https://news.google.com/rss/search?q=site:gov.mt&hl=en&gl=MT&ceid=MT:en"

/-- World whose feed is empty except for Malta's first stage-(a) query, which
returns `eForeign`: the primary pass finds nothing and fallback (a) fires
(run with the `ORYX_THEMES` restriction narrowing the scan to one theme). -/
def WF : W :=
  { unescape := id
    quote := id
    netloc := simpleNetloc
    feed := fun u => if u == faUrlMalta then [eForeign] else []
    enabled := some ["Anti-Corruption"]
    now := 86400 }

/-- World with an empty feed everywhere. -/
def WE : W :=
  { unescape := id
    quote := id
    netloc := simpleNetloc
    feed := fun _ => []
    enabled := none
    now := 86400 }

/-- The classified item that `WA`'s boundary entry yields. -/
def itemBoundary : Item :=
  { title := "atlantis open government summit", link := "https://un.org/a", summary := "",
    domain := "un.org", time := 0, themes := ["Open Government"], verified := false }

/-- The verified-pool item that `WM`'s local-TLD entry yields. -/
def itemLocalTldV : Item :=
  { title := "malta open government news", link := "https://times.mt/a", summary := "",
    domain := "times.mt", time := 10000, themes := ["Open Government"], verified := true }

/-- The single country block of the `WA` run. -/
def blockAtlantis : BlockOut := (processCountry WA 24 true [] "Atlantis").2

/-- A fetch collaborator for `fetch.py` that fails on one feed URL. -/
def failingFetch : String → Except String (List FEntry) := fun u =>
  if u == "http://bad.example/feed" then Except.error "boom" else Except.ok []

/-! ## Infrastructure lemmas -/

theorem mem_flatMapL {α β : Type} (f : α → List β) (l : List α) (b : β) :
    b ∈ flatMapL f l ↔ ∃ a ∈ l, b ∈ f a := by
  induction l with
  | nil => simp [flatMapL]
  | cons x t ih =>
    simp only [flatMapL, List.mem_append, ih, List.mem_cons]
    constructor
    · rintro (hb | ⟨a, ha, hb⟩)
      · exact ⟨x, Or.inl rfl, hb⟩
      · exact ⟨a, Or.inr ha, hb⟩
    · rintro ⟨a, (rfl | ha), hb⟩
      · exact Or.inl hb
      · exact Or.inr ⟨a, ha, hb⟩

theorem memS_cons (k x : String) (t : List String) :
    memS k (x :: t) = (k == x || memS k t) := rfl

theorem memS_eq_false_of_cons {k x : String} {t : List String}
    (h : memS k (x :: t) = false) : k ≠ x ∧ memS k t = false := by
  rw [memS_cons] at h
  simp only [Bool.or_eq_false_iff, beq_eq_false_iff_ne, ne_eq] at h
  exact ⟨h.1, h.2⟩

theorem lookupStr_mem {α : Type} {l : List (String × α)} {k : String} {v : α}
    (h : lookupStr l k = some v) : (k, v) ∈ l := by
  induction l with
  | nil => simp [lookupStr] at h
  | cons p t ih =>
    rw [show lookupStr (p :: t) k = if p.1 == k then some p.2 else lookupStr t k from rfl] at h
    by_cases hk : p.1 == k
    · rw [if_pos hk] at h
      have : p.1 = k := by simpa using hk
      cases h
      have hp : (k, p.2) = p := by
        cases p
        simp [← this]
      rw [hp]
      exact List.mem_cons_self p t
    · rw [if_neg hk] at h
      exact List.mem_cons_of_mem _ (ih h)

theorem processEntry_some {w : W} {c lab : String} {cutoff : Int} {e : Entry} {it : Item}
    (h : processEntry w c lab cutoff e = some it) :
    it.themes ≠ [] ∧ cutoff ≤ it.time ∧
      it.verified = ((lab == "verified") || isVerifiedDomain c it.domain) := by
  unfold processEntry at h
  split at h
  · exact absurd h (by simp)
  next dt hts =>
    split at h
    · exact absurd h (by simp)
    next hlt =>
      split at h
      · exact absurd h (by simp)
      next hth =>
        split at h
        next hal =>
          cases Option.some.inj h
          refine ⟨?_, ?_, rfl⟩
          · show matchThemes w.enabled (entryText w e) ≠ []
            simpa using hth
          · show cutoff ≤ dt
            omega
        · exact absurd h (by simp)

theorem processEntryA_some {w : W} {cutoff : Int} {e : Entry} {it : Item}
    (h : processEntryA w cutoff e = some it) :
    it.themes ≠ [] ∧ cutoff ≤ it.time ∧ it.verified = true := by
  unfold processEntryA at h
  split at h
  · exact absurd h (by simp)
  next dt hts =>
    split at h
    · exact absurd h (by simp)
    next hlt =>
      split at h
      · exact absurd h (by simp)
      next hth =>
        cases Option.some.inj h
        refine ⟨?_, ?_, rfl⟩
        · show matchThemes w.enabled (entryText w e) ≠ []
          simpa using hth
        · show cutoff ≤ dt
          omega

theorem processEntryB_some {w : W} {c : String} {cutoff : Int} {e : Entry} {it : Item}
    (h : processEntryB w c cutoff e = some it) :
    it.themes ≠ [] ∧ cutoff ≤ it.time ∧ it.verified = false ∧
      containsCountry (it.title ++ " " ++ it.summary) c = true ∧
      (isLocalDomain c it.domain || globalAllowedDom it.domain) = true := by
  unfold processEntryB at h
  split at h
  · exact absurd h (by simp)
  next dt hts =>
    split at h
    · exact absurd h (by simp)
    next hlt =>
      split at h
      · exact absurd h (by simp)
      next hcc =>
        split at h
        · exact absurd h (by simp)
        next hth =>
          split at h
          next hdom =>
            cases Option.some.inj h
            refine ⟨?_, ?_, rfl, ?_, ?_⟩
            · show matchThemes w.enabled (entryText w e) ≠ []
              simpa using hth
            · show cutoff ≤ dt
              omega
            · show containsCountry (entryTitle w e ++ " " ++ entrySummary w e) c = true
              simpa using hcc
            · show (isLocalDomain c (entryDom w e) || globalAllowedDom (entryDom w e)) = true
              exact hdom
          · exact absurd h (by simp)

theorem mem_primaryItems {w : W} {c : String} {cutoff : Int} {it : Item}
    (h : it ∈ primaryItems w c cutoff) :
    ∃ lab e, processEntry w c lab cutoff e = some it := by
  unfold primaryItems at h
  rw [mem_flatMapL] at h
  obtain ⟨lg, _, h⟩ := h
  rw [mem_flatMapL] at h
  obtain ⟨q, _, h⟩ := h
  rw [mem_flatMapL] at h
  obtain ⟨loc, _, h⟩ := h
  rw [List.mem_filterMap] at h
  obtain ⟨e, _, he⟩ := h
  exact ⟨lg.1, e, he⟩

theorem mem_fallbackA {w : W} {c : String} {cutoff : Int} {it : Item}
    (h : it ∈ fallbackA w c cutoff) :
    ∃ e, processEntryA w cutoff e = some it := by
  unfold fallbackA at h
  split at h
  · simp at h
  · rw [mem_flatMapL] at h
    obtain ⟨site, _, h⟩ := h
    rw [mem_flatMapL] at h
    obtain ⟨loc, _, h⟩ := h
    rw [List.mem_filterMap] at h
    obtain ⟨e, _, he⟩ := h
    exact ⟨e, he⟩

theorem mem_fallbackB {w : W} {c : String} {cutoff : Int} {it : Item}
    (h : it ∈ fallbackB w c cutoff) :
    ∃ e, processEntryB w c cutoff e = some it := by
  unfold fallbackB at h
  rw [mem_flatMapL] at h
  obtain ⟨loc, _, h⟩ := h
  rw [List.mem_filterMap] at h
  obtain ⟨e, _, he⟩ := h
  exact ⟨e, he⟩

theorem mem_dedupeGo {seen : List String} {l : List Item} {it : Item}
    (h : it ∈ dedupeGo seen l) : it ∈ l := by
  induction l generalizing seen with
  | nil => simp [dedupeGo] at h
  | cons x t ih =>
    rw [show dedupeGo seen (x :: t) =
        if itemKey x ≠ "" && !memS (itemKey x) seen then
          x :: dedupeGo (itemKey x :: seen) t
        else dedupeGo seen t from rfl] at h
    split at h
    · rcases List.mem_cons.mp h with h | h
      · exact h ▸ List.mem_cons_self x t
      · exact List.mem_cons_of_mem _ (ih h)
    · exact List.mem_cons_of_mem _ (ih h)

theorem mem_dedupe {l : List Item} {it : Item} (h : it ∈ dedupe l) : it ∈ l :=
  mem_dedupeGo h

theorem dedupeGo_not_seen {seen : List String} {l : List Item} {it : Item}
    (h : it ∈ dedupeGo seen l) : memS (itemKey it) seen = false := by
  induction l generalizing seen with
  | nil => simp [dedupeGo] at h
  | cons x t ih =>
    rw [show dedupeGo seen (x :: t) =
        if itemKey x ≠ "" && !memS (itemKey x) seen then
          x :: dedupeGo (itemKey x :: seen) t
        else dedupeGo seen t from rfl] at h
    split at h
    next hc =>
      rcases List.mem_cons.mp h with rfl | h
      · simpa using (Bool.and_eq_true ..).mp hc |>.2
      · exact (memS_eq_false_of_cons (ih h)).2
    · exact ih h

theorem dedupeGo_pairwise (seen : List String) (l : List Item) :
    List.Pairwise (fun a b => itemKey a ≠ itemKey b) (dedupeGo seen l) := by
  induction l generalizing seen with
  | nil => exact List.Pairwise.nil
  | cons x t ih =>
    rw [show dedupeGo seen (x :: t) =
        if itemKey x ≠ "" && !memS (itemKey x) seen then
          x :: dedupeGo (itemKey x :: seen) t
        else dedupeGo seen t from rfl]
    split
    · refine List.Pairwise.cons ?_ (ih _)
      intro b hb
      have := dedupeGo_not_seen hb
      exact fun hk => by simp [memS_cons, hk] at this
    · exact ih seen

theorem dedupe_pairwise (l : List Item) :
    List.Pairwise (fun a b => itemKey a ≠ itemKey b) (dedupe l) :=
  dedupeGo_pairwise [] l

theorem mem_poolV {w : W} {c : String} {cutoff : Int} {it : Item}
    (h : it ∈ poolV w c cutoff) :
    it ∈ primV w c cutoff ∨ it ∈ fallbackA w c cutoff := by
  unfold poolV at h
  split at h
  · exact List.mem_append.mp h
  · exact Or.inl h

theorem mem_poolM {w : W} {c : String} {cutoff : Int} {it : Item}
    (h : it ∈ poolM w c cutoff) :
    it ∈ primM w c cutoff ∨ it ∈ fallbackB w c cutoff := by
  unfold poolM at h
  split at h
  · exact List.mem_append.mp h
  · exact Or.inl h

/-- Every item in either pool of `_collect_for` passed one of the three
per-entry bodies: its theme list is non-empty and its timestamp is at least
the cutoff. -/
theorem collectFor_mem {w : W} {c : String} {hours : Int} {it : Item}
    (h : it ∈ (collectFor w c hours).1 ∨ it ∈ (collectFor w c hours).2) :
    it.themes ≠ [] ∧ w.now - hours * 3600 ≤ it.time := by
  rcases h with h | h
  · have h1 := mem_dedupe h
    rcases mem_poolV h1 with h2 | h2
    · have h3 := List.mem_filter.mp h2 |>.1
      obtain ⟨lab, e, he⟩ := mem_primaryItems h3
      have := processEntry_some he
      exact ⟨this.1, this.2.1⟩
    · obtain ⟨e, he⟩ := mem_fallbackA h2
      have := processEntryA_some he
      exact ⟨this.1, this.2.1⟩
  · have h1 := mem_dedupe h
    rcases mem_poolM h1 with h2 | h2
    · have h3 := List.mem_filter.mp h2 |>.1
      obtain ⟨lab, e, he⟩ := mem_primaryItems h3
      have := processEntry_some he
      exact ⟨this.1, this.2.1⟩
    · obtain ⟨e, he⟩ := mem_fallbackB h2
      have := processEntryB_some he
      exact ⟨this.1, this.2.1⟩

theorem mem_selectItems {vOnly : Bool} {v m : List Item} {it : Item}
    (h : it ∈ selectItems vOnly v m) : it ∈ v ∨ it ∈ m := by
  unfold selectItems at h
  split at h
  · exact Or.inl h
  · exact List.mem_append.mp h

theorem globalFilter_sub {seen : List String} {l : List Item} {it : Item}
    (h : it ∈ (globalFilter seen l).2) : it ∈ l := by
  induction l generalizing seen with
  | nil => simp [globalFilter] at h
  | cons x t ih =>
    rw [show globalFilter seen (x :: t) =
        if memS (itemKey x) seen then globalFilter seen t
        else ((globalFilter (itemKey x :: seen) t).1,
              x :: (globalFilter (itemKey x :: seen) t).2) from rfl] at h
    split at h
    · exact List.mem_cons_of_mem _ (ih h)
    · rcases List.mem_cons.mp h with rfl | h
      · exact List.mem_cons_self _ _
      · exact List.mem_cons_of_mem _ (ih h)

theorem globalFilter_not_seen {seen : List String} {l : List Item} {it : Item}
    (h : it ∈ (globalFilter seen l).2) : memS (itemKey it) seen = false := by
  induction l generalizing seen with
  | nil => simp [globalFilter] at h
  | cons x t ih =>
    rw [show globalFilter seen (x :: t) =
        if memS (itemKey x) seen then globalFilter seen t
        else ((globalFilter (itemKey x :: seen) t).1,
              x :: (globalFilter (itemKey x :: seen) t).2) from rfl] at h
    split at h
    next hc => exact ih h
    next hc =>
      rcases List.mem_cons.mp h with rfl | h
      · exact Bool.eq_false_iff.mpr fun hx => by simp [hx] at hc
      · exact (memS_eq_false_of_cons (ih h)).2

theorem globalFilter_seen_mono {seen : List String} {l : List Item} {k : String}
    (h : memS k seen = true) : memS k (globalFilter seen l).1 = true := by
  induction l generalizing seen with
  | nil => exact h
  | cons x t ih =>
    rw [show globalFilter seen (x :: t) =
        if memS (itemKey x) seen then globalFilter seen t
        else ((globalFilter (itemKey x :: seen) t).1,
              x :: (globalFilter (itemKey x :: seen) t).2) from rfl]
    split
    · exact ih h
    · exact ih (by simp [memS_cons, h])

theorem globalFilter_key_in {seen : List String} {l : List Item} {it : Item}
    (h : it ∈ (globalFilter seen l).2) : memS (itemKey it) (globalFilter seen l).1 = true := by
  induction l generalizing seen with
  | nil => simp [globalFilter] at h
  | cons x t ih =>
    rw [show globalFilter seen (x :: t) =
        if memS (itemKey x) seen then globalFilter seen t
        else ((globalFilter (itemKey x :: seen) t).1,
              x :: (globalFilter (itemKey x :: seen) t).2) from rfl] at h ⊢
    by_cases hc : memS (itemKey x) seen = true
    · rw [if_pos hc] at h ⊢
      exact ih h
    · rw [if_neg hc] at h ⊢
      rcases List.mem_cons.mp h with rfl | h
      · exact globalFilter_seen_mono (by simp [memS_cons])
      · exact ih h

theorem globalFilter_pairwise (seen : List String) (l : List Item) :
    List.Pairwise (fun a b => itemKey a ≠ itemKey b) (globalFilter seen l).2 := by
  induction l generalizing seen with
  | nil => exact List.Pairwise.nil
  | cons x t ih =>
    rw [show globalFilter seen (x :: t) =
        if memS (itemKey x) seen then globalFilter seen t
        else ((globalFilter (itemKey x :: seen) t).1,
              x :: (globalFilter (itemKey x :: seen) t).2) from rfl]
    split
    · exact ih seen
    · refine List.Pairwise.cons ?_ (ih _)
      intro b hb
      have := globalFilter_not_seen hb
      exact fun hk => by simp [memS_cons, hk] at this

theorem globalFilter_keeps {seen : List String} {l : List Item}
    (hfresh : ∀ it ∈ l, memS (itemKey it) seen = false)
    (hpw : List.Pairwise (fun a b => itemKey a ≠ itemKey b) l) :
    (globalFilter seen l).2 = l := by
  induction l generalizing seen with
  | nil => rfl
  | cons x t ih =>
    rw [show globalFilter seen (x :: t) =
        if memS (itemKey x) seen then globalFilter seen t
        else ((globalFilter (itemKey x :: seen) t).1,
              x :: (globalFilter (itemKey x :: seen) t).2) from rfl]
    rw [if_neg (by simp [hfresh x (List.mem_cons_self x t)])]
    have hpw' := List.pairwise_cons.mp hpw
    have : (globalFilter (itemKey x :: seen) t).2 = t := by
      refine ih ?_ hpw'.2
      intro it hit
      simp [memS_cons, hfresh it (List.mem_cons_of_mem x hit),
        (hpw'.1 it hit).symm]
    rw [this]

theorem processCountry_country (w : W) (hours : Int) (vOnly : Bool) (seen : List String)
    (c : String) : (processCountry w hours vOnly seen c).2.country = c := rfl

theorem processCountry_pool (w : W) (hours : Int) (vOnly : Bool) (seen : List String)
    (c : String) :
    (processCountry w hours vOnly seen c).2.pool =
      (globalFilter seen (selectItems vOnly (collectFor w c hours).1 (collectFor w c hours).2)).2 :=
  rfl

theorem processCountry_seen (w : W) (hours : Int) (vOnly : Bool) (seen : List String)
    (c : String) :
    (processCountry w hours vOnly seen c).1 =
      (globalFilter seen (selectItems vOnly (collectFor w c hours).1 (collectFor w c hours).2)).1 :=
  rfl

theorem mem_runBlocksGo {w : W} {hours : Int} {vOnly : Bool} {seen : List String}
    {cs : List String} {b : BlockOut} (h : b ∈ runBlocksGo w hours vOnly seen cs) :
    ∃ s c, c ∈ cs ∧ b = (processCountry w hours vOnly s c).2 := by
  induction cs generalizing seen with
  | nil => simp [runBlocksGo] at h
  | cons c t ih =>
    rw [show runBlocksGo w hours vOnly seen (c :: t) =
        (processCountry w hours vOnly seen c).2 ::
          runBlocksGo w hours vOnly (processCountry w hours vOnly seen c).1 t from rfl] at h
    rcases List.mem_cons.mp h with rfl | h
    · exact ⟨seen, c, List.mem_cons_self _ _, rfl⟩
    · obtain ⟨s, c2, hc2, hb⟩ := ih h
      exact ⟨s, c2, List.mem_cons_of_mem _ hc2, hb⟩

theorem runBlocksGo_map_country (w : W) (hours : Int) (vOnly : Bool) (seen : List String)
    (cs : List String) :
    (runBlocksGo w hours vOnly seen cs).map (fun b => b.country) = cs := by
  induction cs generalizing seen with
  | nil => rfl
  | cons c t ih =>
    rw [show runBlocksGo w hours vOnly seen (c :: t) =
        (processCountry w hours vOnly seen c).2 ::
          runBlocksGo w hours vOnly (processCountry w hours vOnly seen c).1 t from rfl]
    simp only [List.map_cons, processCountry_country, ih]

theorem runBlocksGo_fresh {w : W} {hours : Int} {vOnly : Bool} {seen : List String}
    {cs : List String} {b : BlockOut} (hb : b ∈ runBlocksGo w hours vOnly seen cs)
    {it : Item} (hit : it ∈ b.pool) : memS (itemKey it) seen = false := by
  induction cs generalizing seen with
  | nil => simp [runBlocksGo] at hb
  | cons c t ih =>
    rw [show runBlocksGo w hours vOnly seen (c :: t) =
        (processCountry w hours vOnly seen c).2 ::
          runBlocksGo w hours vOnly (processCountry w hours vOnly seen c).1 t from rfl] at hb
    rcases List.mem_cons.mp hb with rfl | hb
    · rw [processCountry_pool] at hit
      exact globalFilter_not_seen hit
    · have h1 := ih hb
      by_contra hcon
      have h2 : memS (itemKey it) seen = true := by
        cases hmem : memS (itemKey it) seen
        · exact absurd hmem hcon
        · rfl
      have h3 : memS (itemKey it) (processCountry w hours vOnly seen c).1 = true := by
        rw [processCountry_seen]
        exact globalFilter_seen_mono h2
      rw [h1] at h3
      cases h3

theorem runBlocksGo_pairwise (w : W) (hours : Int) (vOnly : Bool) (seen : List String)
    (cs : List String) :
    List.Pairwise
      (fun b1 b2 => ∀ i1 ∈ b1.pool, ∀ i2 ∈ b2.pool, itemKey i1 ≠ itemKey i2)
      (runBlocksGo w hours vOnly seen cs) := by
  induction cs generalizing seen with
  | nil => exact List.Pairwise.nil
  | cons c t ih =>
    rw [show runBlocksGo w hours vOnly seen (c :: t) =
        (processCountry w hours vOnly seen c).2 ::
          runBlocksGo w hours vOnly (processCountry w hours vOnly seen c).1 t from rfl]
    refine List.Pairwise.cons ?_ (ih _)
    intro b2 hb2 i1 hi1 i2 hi2 hkey
    have h1 : memS (itemKey i1) (processCountry w hours vOnly seen c).1 = true := by
      rw [processCountry_seen]
      rw [processCountry_pool] at hi1
      exact globalFilter_key_in hi1
    have h2 := runBlocksGo_fresh hb2 hi2
    rw [← hkey] at h2
    rw [h1] at h2
    cases h2

theorem rankGE_iff (a b : Item) :
    rankGE a b = true ↔
      (bNat b.verified < bNat a.verified ∨
        (bNat a.verified = bNat b.verified ∧
          (b.themes.length < a.themes.length ∨
            (a.themes.length = b.themes.length ∧ b.time ≤ a.time)))) := by
  unfold rankGE
  simp [Bool.or_eq_true, Bool.and_eq_true, decide_eq_true_eq, beq_iff_eq]

instance rankRelTotal : IsTotal Item rankRel := by
  constructor
  intro a b
  unfold rankRel
  rw [rankGE_iff, rankGE_iff]
  omega

instance rankRelTrans : IsTrans Item rankRel := by
  constructor
  intro a b c hab hbc
  unfold rankRel at hab hbc ⊢
  rw [rankGE_iff] at hab hbc ⊢
  omega

theorem rankRel_verified {a b : Item} (h : rankRel a b) (hb : b.verified = true) :
    a.verified = true := by
  unfold rankRel at h
  rw [rankGE_iff] at h
  rw [hb] at h
  cases hv : a.verified
  · rw [hv] at h
    simp [bNat] at h
  · rfl

theorem rankSort_sorted (l : List Item) : List.Pairwise rankRel (rankSort l) :=
  List.sorted_insertionSort rankRel l

theorem rankSort_perm (l : List Item) : (rankSort l).Perm l :=
  List.perm_insertionSort rankRel l

theorem processCountry_block (w : W) (hours : Int) (vOnly : Bool) (seen : List String)
    (c : String) :
    (processCountry w hours vOnly seen c).2.displayed =
        (rankSort (processCountry w hours vOnly seen c).2.pool).take 6 ∧
      (processCountry w hours vOnly seen c).2.total =
        (processCountry w hours vOnly seen c).2.pool.length ∧
      (processCountry w hours vOnly seen c).2.vcount =
        ((processCountry w hours vOnly seen c).2.pool.filter fun it => it.verified).length ∧
      (processCountry w hours vOnly seen c).2.mcount =
        (processCountry w hours vOnly seen c).2.total -
          (processCountry w hours vOnly seen c).2.vcount ∧
      (processCountry w hours vOnly seen c).2.topSrc =
        topSrcOf (processCountry w hours vOnly seen c).2.pool ∧
      (processCountry w hours vOnly seen c).2.topThemes =
        topThemesOf (processCountry w hours vOnly seen c).2.pool :=
  ⟨rfl, rfl, rfl, rfl, rfl, rfl⟩

theorem displayed_pairwise (pool : List Item) :
    List.Pairwise (fun a b => b.verified = true → a.verified = true)
      ((rankSort pool).take 6) := by
  have h1 : List.Pairwise rankRel ((rankSort pool).take 6) :=
    (rankSort_sorted pool).sublist (List.take_sublist 6 _)
  exact h1.imp fun hab hb => rankRel_verified hab hb

/-! ## Claim theorems -/

set_option maxRecDepth 40000

/-- C1 counterexample: in the `WA` run (reference time 86400, 24h window, so
the cutoff `now − window` is 0) the single digest block contains exactly one
item and its timestamp is exactly `now − window`: an item dated precisely at
the cutoff boundary is emitted, so the cutoff is not an exclusive lower
bound. -/
theorem c1_counterexample :
    ((runBlocks WA ["Atlantis"] 24 true).map fun b => b.pool.map fun it => it.time) =
      [[WA.now - 24 * 3600]] := by decide

/-- C1 (amended): every item in every country block of every run carries a
timestamp ≥ `now − window` (the recency gate `dt < cutoff` makes the cutoff an
inclusive lower bound, so a timestamp exactly at the boundary is included),
and an undated entry (no `published_parsed`/`updated_parsed`) is discarded by
all three collection stages and never becomes an item. -/
theorem c1_theorem :
    ∀ (w : W) (cs : List String) (hours : Int) (vOnly : Bool),
      (∀ b ∈ runBlocks w cs hours vOnly, ∀ it ∈ b.pool, w.now - hours * 3600 ≤ it.time) ∧
      (∀ (c lab : String) (cutoff : Int) (e : Entry), tsOf e = none →
        processEntry w c lab cutoff e = none ∧ processEntryA w cutoff e = none ∧
          processEntryB w c cutoff e = none) := by
  intro w cs hours vOnly
  constructor
  · intro b hb it hit
    obtain ⟨s, c, _, rfl⟩ := mem_runBlocksGo hb
    rw [processCountry_pool] at hit
    have h1 := globalFilter_sub hit
    have h2 := mem_selectItems h1
    exact (collectFor_mem h2).2
  · intro c lab cutoff e hts
    exact ⟨by simp [processEntry, hts], by simp [processEntryA, hts], by simp [processEntryB, hts]⟩

/-- C1 witness: the amended bound instantiated on the concrete `WA` run and
its boundary item. -/
theorem c1_witness : WA.now - 24 * 3600 ≤ itemBoundary.time :=
  (c1_theorem WA ["Atlantis"] 24 true).1 blockAtlantis (by decide) itemBoundary (by decide)

/-- C2: in every run the emitted blocks follow the caller's country order, no
identity key (`link`, else `title + domain`) occurs in the pools of two
distinct country blocks (the run-wide seen-set makes the first-processed
country claim the key), and keys are also unique within each block's pool. -/
theorem c2_theorem :
    ∀ (w : W) (cs : List String) (hours : Int) (vOnly : Bool),
      ((runBlocks w cs hours vOnly).map fun b => b.country) = cs ∧
      List.Pairwise (fun b1 b2 => ∀ i1 ∈ b1.pool, ∀ i2 ∈ b2.pool, itemKey i1 ≠ itemKey i2)
        (runBlocks w cs hours vOnly) ∧
      ∀ b ∈ runBlocks w cs hours vOnly,
        List.Pairwise (fun i1 i2 => itemKey i1 ≠ itemKey i2) b.pool := by
  intro w cs hours vOnly
  refine ⟨runBlocksGo_map_country w hours vOnly [] cs,
    runBlocksGo_pairwise w hours vOnly [] cs, ?_⟩
  intro b hb
  obtain ⟨s, c, _, rfl⟩ := mem_runBlocksGo hb
  rw [processCountry_pool]
  exact globalFilter_pairwise _ _

/-- C2 witness: the country-order and within-block key-uniqueness conclusions
instantiated on the concrete `WA` run. -/
theorem c2_witness :
    ((runBlocks WA ["Atlantis"] 24 true).map fun b => b.country) = ["Atlantis"] ∧
      List.Pairwise (fun i1 i2 => itemKey i1 ≠ itemKey i2) blockAtlantis.pool :=
  ⟨(c2_theorem WA ["Atlantis"] 24 true).1,
   (c2_theorem WA ["Atlantis"] 24 true).2.2 blockAtlantis (by decide)⟩

/-- C3: an item surviving any of the three collection stages has a non-empty
matched-theme list, and consequently every item in every digest block has
one. -/
theorem c3_theorem :
    ∀ (w : W) (cs : List String) (hours : Int) (vOnly : Bool),
      (∀ (c : String), ∀ it,
        (it ∈ (collectFor w c hours).1 ∨ it ∈ (collectFor w c hours).2) → it.themes ≠ []) ∧
      ∀ b ∈ runBlocks w cs hours vOnly, ∀ it ∈ b.pool, it.themes ≠ [] := by
  intro w cs hours vOnly
  constructor
  · intro c it h
    exact (collectFor_mem h).1
  · intro b hb it hit
    obtain ⟨s, c, _, rfl⟩ := mem_runBlocksGo hb
    rw [processCountry_pool] at hit
    exact (collectFor_mem (mem_selectItems (globalFilter_sub hit))).1

/-- C3 witness: instantiated on the concrete `WA` run and its item. -/
theorem c3_witness : itemBoundary.themes ≠ [] :=
  (c3_theorem WA ["Atlantis"] 24 true).2 blockAtlantis (by decide) itemBoundary (by decide)

/-- C4: in every block the displayed list is the 6-item prefix of the pool
sorted by the descending key (trust tier, then matched-theme count, then
timestamp); the sorted list is ordered under `rankRel` and is a permutation of
the full pool; within the displayed slice no media item precedes a verified
one; and the count and top-domain/top-theme metrics are computed from the full
deduplicated pool, not the truncated slice. -/
theorem c4_theorem :
    ∀ (w : W) (cs : List String) (hours : Int) (vOnly : Bool),
      ∀ b ∈ runBlocks w cs hours vOnly,
        b.displayed = (rankSort b.pool).take 6 ∧
        List.Pairwise rankRel (rankSort b.pool) ∧
        (rankSort b.pool).Perm b.pool ∧
        List.Pairwise (fun x y => y.verified = true → x.verified = true) b.displayed ∧
        b.total = b.pool.length ∧
        b.vcount = (b.pool.filter fun it => it.verified).length ∧
        b.mcount = b.total - b.vcount ∧
        b.topSrc = topSrcOf b.pool ∧
        b.topThemes = topThemesOf b.pool := by
  intro w cs hours vOnly b hb
  obtain ⟨s, c, _, rfl⟩ := mem_runBlocksGo hb
  obtain ⟨h1, h2, h3, h4, h5, h6⟩ := processCountry_block w hours vOnly s c
  refine ⟨h1, rankSort_sorted _, rankSort_perm _, ?_, h2, h3, h4, h5, h6⟩
  rw [h1]
  exact displayed_pairwise _

/-- C4 witness: the displayed-slice conclusion on the concrete `WA` run. -/
theorem c4_witness :
    blockAtlantis.displayed = (rankSort blockAtlantis.pool).take 6 :=
  (c4_theorem WA ["Atlantis"] 24 true blockAtlantis (by decide)).1

theorem isEmpty_false_of_ne {α : Type} {l : List α} (h : l ≠ []) : l.isEmpty = false := by
  cases l with
  | nil => exact absurd rfl h
  | cons x t => rfl

/-- C5 counterexample: in the `WF` run the primary pass yields nothing for
Malta, fallback stage (a) fires, and it accepts an item whose domain is in
neither of Malta's explicit site lists and whose text mentions no name of
Malta — stage (a) enforces no post-fetch domain-match-or-country-mention
requirement, contradicting the claim's description of stage (a). -/
theorem c5_counterexample :
    primV WF "Malta" (WF.now - 24 * 3600) = [] ∧
    primM WF "Malta" (WF.now - 24 * 3600) = [] ∧
    ((collectFor WF "Malta" 24).1.map fun it =>
      (it.domain,
       containsCountry (it.title ++ " " ++ it.summary) "Malta",
       (match lookupStr COUNTRY_CONF "Malta" with
        | some conf => endsWithAny it.domain conf.1 || endsWithAny it.domain conf.2
        | none => false))) =
      [("random.example", false, false)] := by decide

/-- C5 (amended): the fallback stages are strictly staged and never merged —
stage (a) contributes only when the primary pass found nothing, stage (b) only
when stage (a) also found nothing; stage (a)'s site restriction lives in its
query strings while post-fetch it enforces only recency and the theme gate (no
domain or country-mention check); stage (b) post-fetch requires the country
mention, a theme match, and a local-TLD or global-allowlist domain; and when
all stages are empty the country's block still appears, rendering the explicit
no-items line. -/
theorem c5_theorem :
    ∀ (w : W) (c : String) (hours : Int),
      (¬(primV w c (w.now - hours * 3600) = [] ∧ primM w c (w.now - hours * 3600) = []) →
        collectFor w c hours =
          (dedupe (primV w c (w.now - hours * 3600)), dedupe (primM w c (w.now - hours * 3600)))) ∧
      (primV w c (w.now - hours * 3600) = [] → primM w c (w.now - hours * 3600) = [] →
        fallbackA w c (w.now - hours * 3600) ≠ [] →
        collectFor w c hours = (dedupe (fallbackA w c (w.now - hours * 3600)), [])) ∧
      (primV w c (w.now - hours * 3600) = [] → primM w c (w.now - hours * 3600) = [] →
        fallbackA w c (w.now - hours * 3600) = [] →
        collectFor w c hours = ([], dedupe (fallbackB w c (w.now - hours * 3600)))) ∧
      (∀ conf, lookupStr COUNTRY_CONF c = some conf →
        fallbackA w c (w.now - hours * 3600) =
          flatMapL
            (fun site => flatMapL
              (fun loc => (w.feed (gnRss w ("site:" ++ site) loc)).filterMap
                (processEntryA w (w.now - hours * 3600)))
              (localesOf c))
            conf.1) ∧
      (∀ it ∈ fallbackA w c (w.now - hours * 3600),
        it.themes ≠ [] ∧ w.now - hours * 3600 ≤ it.time) ∧
      (∀ it ∈ fallbackB w c (w.now - hours * 3600),
        it.themes ≠ [] ∧ containsCountry (it.title ++ " " ++ it.summary) c = true ∧
          (isLocalDomain c it.domain || globalAllowedDom it.domain) = true) ∧
      (∀ (cs : List String) (vOnly : Bool),
        ((runBlocks w cs hours vOnly).map fun b => b.country) = cs) ∧
      (∀ (vOnly : Bool) (seen : List String), collectFor w c hours = ([], []) →
        (processCountry w hours vOnly seen c).2.lines =
          [headerLine c 0 0 0 (topThemesOf []) (topSrcOf []), noItemsLine hours]) := by
  intro w c hours
  refine ⟨?_, ?_, ?_, ?_, ?_, ?_, ?_, ?_⟩
  · intro h
    have hpv : poolV w c (w.now - hours * 3600) = primV w c (w.now - hours * 3600) := by
      unfold poolV
      rcases not_and_or.mp h with hv | hm
      · rw [if_neg (by simp [isEmpty_false_of_ne hv])]
      · rw [if_neg (by simp [isEmpty_false_of_ne hm])]
    have hpm : poolM w c (w.now - hours * 3600) = primM w c (w.now - hours * 3600) := by
      unfold poolM
      rw [hpv]
      rcases not_and_or.mp h with hv | hm
      · rw [if_neg (by simp [isEmpty_false_of_ne hv])]
      · rw [if_neg (by simp [isEmpty_false_of_ne hm])]
    show (dedupe (poolV w c (w.now - hours * 3600)), dedupe (poolM w c (w.now - hours * 3600))) = _
    rw [hpv, hpm]
  · intro hv hm ha
    have hpv : poolV w c (w.now - hours * 3600) = fallbackA w c (w.now - hours * 3600) := by
      unfold poolV
      rw [if_pos (by simp [hv, hm])]
      rw [hv]
      rfl
    have hpm : poolM w c (w.now - hours * 3600) = [] := by
      unfold poolM
      rw [hpv, if_neg (by simp [isEmpty_false_of_ne ha]), hm]
    show (dedupe (poolV w c (w.now - hours * 3600)), dedupe (poolM w c (w.now - hours * 3600))) = _
    rw [hpv, hpm]
    rfl
  · intro hv hm ha
    have hpv : poolV w c (w.now - hours * 3600) = [] := by
      unfold poolV
      rw [if_pos (by simp [hv, hm])]
      rw [hv, ha]
      rfl
    have hpm : poolM w c (w.now - hours * 3600) = fallbackB w c (w.now - hours * 3600) := by
      unfold poolM
      rw [hpv, if_pos (by simp [hm]), hm]
      rfl
    show (dedupe (poolV w c (w.now - hours * 3600)), dedupe (poolM w c (w.now - hours * 3600))) = _
    rw [hpv, hpm]
    rfl
  · intro conf hconf
    unfold fallbackA
    rw [hconf]
  · intro it hit
    obtain ⟨e, he⟩ := mem_fallbackA hit
    have := processEntryA_some he
    exact ⟨this.1, this.2.1⟩
  · intro it hit
    obtain ⟨e, he⟩ := mem_fallbackB hit
    have := processEntryB_some he
    exact ⟨this.1, this.2.2.2.1, this.2.2.2.2⟩
  · intro cs vOnly
    exact runBlocksGo_map_country w hours vOnly [] cs
  · intro vOnly seen hcf
    unfold processCountry
    rw [hcf]
    cases vOnly <;> rfl

/-- C5 witness: on the concrete `WF` run the primary pass is empty and stage
(a) is non-empty, so the output is exactly the deduplicated stage-(a) pool
(and on the all-empty `WE` run Malta's block renders the no-items line). -/
theorem c5_witness :
    collectFor WF "Malta" 24 = (dedupe (fallbackA WF "Malta" (WF.now - 24 * 3600)), []) ∧
    (processCountry WE 24 true [] "Malta").2.lines =
      [headerLine "Malta" 0 0 0 (topThemesOf []) (topSrcOf []), noItemsLine 24] :=
  ⟨(c5_theorem WF "Malta" 24).2.1 (by decide) (by decide) (by decide),
   (c5_theorem WE "Malta" 24).2.2.2.2.2.2.2 true [] (by decide)⟩

/-- C6 counterexample: in the `WM` run Malta's verified pool holds an item
whose domain `times.mt` is in neither of Malta's explicit domain lists and was
accepted by the local-TLD-plus-mention gate (rule b), whose tier the claim
says is media — yet the item's tier is verified, because it arrived under a
verified-labelled query. -/
theorem c6_counterexample :
    ((collectFor WM "Malta" 24).1.map fun it =>
      (it.domain, it.verified,
       isLocalDomain "Malta" it.domain,
       containsCountry (it.title ++ " " ++ it.summary) "Malta",
       (match lookupStr COUNTRY_CONF "Malta" with
        | some conf => endsWithAny it.domain conf.1 || endsWithAny it.domain conf.2
        | none => false))) =
      [("times.mt", true, true, true, false)] := by decide

/-- C6 (amended): an accepted item's trust tier is not determined by which
domain-gate rule accepted it: in the primary pass the tier is verified exactly
when the item arrived under the verified-tier query label or
`_is_verified_domain` holds for its domain (explicit verified list or the
government-host heuristic); stage-(a) items are always tier verified and
stage-(b) items always tier media. -/
theorem c6_theorem :
    ∀ (w : W) (c : String) (cutoff : Int),
      (∀ (lab : String) (e : Entry) (it : Item), processEntry w c lab cutoff e = some it →
        it.verified = ((lab == "verified") || isVerifiedDomain c it.domain)) ∧
      (∀ it ∈ fallbackA w c cutoff, it.verified = true) ∧
      (∀ it ∈ fallbackB w c cutoff, it.verified = false) := by
  intro w c cutoff
  refine ⟨?_, ?_, ?_⟩
  · intro lab e it he
    exact (processEntry_some he).2.2
  · intro it hit
    obtain ⟨e, he⟩ := mem_fallbackA hit
    exact (processEntryA_some he).2.2
  · intro it hit
    obtain ⟨e, he⟩ := mem_fallbackB hit
    exact (processEntryB_some he).2.2.1

/-- C6 witness: the tier equation instantiated on the concrete `WM` entry
collected under the verified query label. -/
theorem c6_witness :
    itemLocalTldV.verified =
      (("verified" == "verified") || isVerifiedDomain "Malta" itemLocalTldV.domain) :=
  (c6_theorem WM "Malta" (WM.now - 24 * 3600)).1 "verified" eLocalTld itemLocalTldV (by decide)

theorem altNames_nonempty : ∀ p ∈ ALT_NAMES, p.2 ≠ [] := by decide

theorem namesOf_ne_nil (c : String) : namesOf c ≠ [] := by
  unfold namesOf
  cases hn : lookupStr ALT_NAMES c with
  | none => simp
  | some l =>
    simp only [Option.getD_some]
    exact altNames_nonempty (c, l) (lookupStr_mem hn)

theorem topics_site_free : occursIn "site:" topicsClause = false := by decide

theorem confNames_site_free :
    ∀ p ∈ COUNTRY_CONF, occursIn "site:" (namesClause p.1) = false ∧
      ∀ s ∈ p.2.1 ++ p.2.2, occursIn "site:" s = false := by decide

/-- C7: for a country with configured domain lists, the targeted tier emits
one query per source domain, each query being the conjunction of the OR-joined
topic clause, the OR-joined quoted country-name clause, and a single
`site:{domain}` clause naming one specific domain — never an OR-combined
domain list, and `site:` occurs nowhere in the topic clause, the name clause
or the domain itself, so the site restriction in each query is unique — and
for a country with no configured lists a single generic query combining the
topic clause with all alternate names and no domain restriction is emitted
instead; both clause sources are non-empty. -/
theorem c7_theorem :
    ∀ (c : String) (conf : List String × List String),
      lookupStr COUNTRY_CONF c = some conf →
      buildQueries c true =
        [("verified", conf.1.map (targetedQuery c)), ("media", conf.2.map (targetedQuery c))] ∧
      ((buildQueries c true).map fun lg => lg.2.length) = [conf.1.length, conf.2.length] ∧
      (∀ lg ∈ buildQueries c true, ∀ q ∈ lg.2, ∃ s, (s ∈ conf.1 ∨ s ∈ conf.2) ∧
        q = targetedQuery c s ∧ occursIn "site:" topicsClause = false ∧
        occursIn "site:" (namesClause c) = false ∧ occursIn "site:" s = false) ∧
      TOPIC_KEYWORDS ≠ [] ∧ namesOf c ≠ [] ∧
      (∀ c2 : String, lookupStr COUNTRY_CONF c2 = none → ∀ t : Bool,
        buildQueries c2 t = [("generic", [genericQuery c2])] ∧ namesOf c2 ≠ []) := by
  intro c conf h
  have hshape : buildQueries c true =
      [("verified", conf.1.map (targetedQuery c)), ("media", conf.2.map (targetedQuery c))] := by
    simp [buildQueries, h]
  have hfree := confNames_site_free (c, conf) (lookupStr_mem h)
  refine ⟨hshape, by rw [hshape]; simp, ?_, by decide, namesOf_ne_nil c, ?_⟩
  · intro lg hlg q hq
    rw [hshape] at hlg
    rcases List.mem_cons.mp hlg with rfl | hlg
    · obtain ⟨s, hs, rfl⟩ := List.mem_map.mp hq
      exact ⟨s, Or.inl hs, rfl, topics_site_free, hfree.1,
        hfree.2 s (List.mem_append_left _ hs)⟩
    · rcases List.mem_cons.mp hlg with rfl | hlg
      · obtain ⟨s, hs, rfl⟩ := List.mem_map.mp hq
        exact ⟨s, Or.inr hs, rfl, topics_site_free, hfree.1,
          hfree.2 s (List.mem_append_right _ hs)⟩
      · simp at hlg
  · intro c2 h2 t
    refine ⟨?_, namesOf_ne_nil c2⟩
    cases t <;> simp [buildQueries, h2]

/-- C7 witness: Malta's emitted query lists, and the single-`site:` count
checked outright on Malta's first verified-site query string. -/
theorem c7_witness :
    buildQueries "Malta" true =
      [("verified", ["gov.mt", "parlament.mt", "data.gov.mt"].map (targetedQuery "Malta")),
       ("media",
        ["timesofmalta.com", "maltatoday.com.mt", "newsbook.com.mt", "tvmnews.mt",
         "lovinmalta.com"].map (targetedQuery "Malta"))] ∧
    countSub "site:" (targetedQuery "Malta" "gov.mt") = 1 :=
  ⟨(c7_theorem ("Malta")
      (["gov.mt", "parlament.mt", "data.gov.mt"],
       ["timesofmalta.com", "maltatoday.com.mt", "newsbook.com.mt", "tvmnews.mt",
        "lovinmalta.com"])
      (by decide)).1,
   by decide⟩

/-- C8: a fetch collaborator failure on one query is observationally an empty
result for that query — replacing the failing query's response with an empty
success leaves `collect` of `fetch.py` unchanged, so items from other queries
come through untouched and the run is not aborted — and, in the digest
pipeline, every configured country yields its block whatever the feed
collaborator returns, so one country's fetch failures never suppress the
remaining countries. -/
theorem c8_theorem :
    ∀ (ff : String → Except String (List FEntry)) (dtp : String → Option Int)
      (utcnow : Int) (feeds keywords : List String) (u msg : String),
      ff u = Except.error msg →
      fetchCollect ff dtp utcnow feeds keywords =
        fetchCollect (fun x => if x == u then Except.ok [] else ff x) dtp utcnow feeds keywords ∧
      ∀ (w : W) (cs : List String) (hours : Int) (vOnly : Bool),
        ((runBlocks w cs hours vOnly).map fun b => b.country) = cs := by
  intro ff dtp utcnow feeds keywords u msg hff
  constructor
  · have hhead : ∀ x, feedContrib ff dtp x =
        feedContrib (fun y => if y == u then Except.ok [] else ff y) dtp x := by
      intro x
      unfold feedContrib
      by_cases hx : x == u
      · have hxu : x = u := by simpa using hx
        subst hxu
        simp [hff]
      · simp [hx]
    have hall : ∀ fs : List String,
        flatMapL (feedContrib ff dtp) fs =
          flatMapL (feedContrib (fun y => if y == u then Except.ok [] else ff y) dtp) fs := by
      intro fs
      induction fs with
      | nil => rfl
      | cons x t ih =>
        show feedContrib ff dtp x ++ _ = _ ++ _
        rw [ih, hhead x]
    unfold fetchCollect
    rw [hall feeds]
  · intro w cs hours vOnly
    exact runBlocksGo_map_country w hours vOnly [] cs

/-- C8 witness: the concrete failing collaborator and a two-country run on the
empty-feed world. -/
theorem c8_witness :
    fetchCollect failingFetch (fun _ => none) 0
        ["http://bad.example/feed", "http://ok.example/feed"] ["k"] =
      fetchCollect
        (fun x => if x == "http://bad.example/feed" then Except.ok [] else failingFetch x)
        (fun _ => none) 0 ["http://bad.example/feed", "http://ok.example/feed"] ["k"] ∧
    ((runBlocks WE ["Malta", "Ghana"] 24 true).map fun b => b.country) = ["Malta", "Ghana"] :=
  ⟨(c8_theorem failingFetch (fun _ => none) 0
      ["http://bad.example/feed", "http://ok.example/feed"] ["k"]
      "http://bad.example/feed" "boom" rfl).1,
   (c8_theorem failingFetch (fun _ => none) 0
      ["http://bad.example/feed", "http://ok.example/feed"] ["k"]
      "http://bad.example/feed" "boom" rfl).2 WE ["Malta", "Ghana"] 24 true⟩

/-- C9: the digest pipeline is deterministic in the frozen fetch responses —
two worlds differing only in extensionally equal feed collaborators (same
response for every query URL), with the same reference time, countries,
window and toggle, produce identical digest text. -/
theorem c9_theorem :
    ∀ (w : W) (f g : String → List Entry) (cs : List String) (hours : Int) (vOnly : Bool),
      (∀ u, f u = g u) →
      generateDigest { w with feed := f } cs hours vOnly =
        generateDigest { w with feed := g } cs hours vOnly := by
  intro w f g cs hours vOnly h
  have hfg : f = g := funext h
  rw [hfg]

/-- C9 witness: two syntactically different but extensionally equal feed
fixtures yield the same digest text. -/
theorem c9_witness :
    generateDigest { WE with feed := fun _ => [] } ["Malta"] 24 true =
      generateDigest { WE with feed := fun _ => [] ++ [] } ["Malta"] 24 true :=
  c9_theorem WE (fun _ => []) (fun _ => [] ++ []) ["Malta"] 24 true (fun _ => rfl)

/-- C10: with the verified-only toggle on, a country whose collected verified
pool is empty still gets its media pool: the selection keeps only verified
items just when at least one verified item exists, so the block's pool is the
(non-empty) media pool rather than the no-items rendering. -/
theorem c10_theorem :
    ∀ (w : W) (c : String) (hours : Int) (m : List Item),
      collectFor w c hours = ([], m) → m ≠ [] →
      ((runBlocks w [c] hours true).map fun b => b.pool) = [m] ∧
      ((runBlocks w [c] hours true).map fun b => b.pool.isEmpty) = [false] ∧
      selectItems true [] m = m := by
  intro w c hours m hcf hm
  have hsel : selectItems true [] m = m := by
    simp [selectItems]
  have hm2 : dedupe (poolM w c (w.now - hours * 3600)) = m := congrArg Prod.snd hcf
  have hpw : List.Pairwise (fun a b => itemKey a ≠ itemKey b) m :=
    hm2 ▸ dedupe_pairwise _
  have hpool : (processCountry w hours true [] c).2.pool = m := by
    rw [processCountry_pool, hcf]
    show (globalFilter [] (selectItems true [] m)).2 = m
    rw [hsel]
    exact globalFilter_keeps (fun it _ => rfl) hpw
  have hrun : runBlocks w [c] hours true = [(processCountry w hours true [] c).2] := rfl
  refine ⟨?_, ?_, hsel⟩
  · rw [hrun]
    simp [hpool]
  · rw [hrun]
    simp [hpool, isEmpty_false_of_ne hm]

/-- C10 witness: in the concrete `WA` run Atlantis collects no verified item
and one media item, and with `verified_only = true` the block's pool is that
media item. -/
theorem c10_witness :
    ((runBlocks WA ["Atlantis"] 24 true).map fun b => b.pool) = [[itemBoundary]] :=
  (c10_theorem WA "Atlantis" 24 [itemBoundary] (by decide) (by decide)).1
